import Mathlib

/-!
Shallow embedding of the booking reconciliation engine of `app.py`
(scheduling polls with capacity limits).  The database tables
`poll_options`, `poll_resources`, `responses` and `matrix_responses`
are lists of rows; SQL queries become list operations; the
`respond_poll` route handler becomes a pure function from the database
and the submitted form to an outcome together with the database state
left behind (error paths perform no writes, exactly as the handler
returns before any `db.execute` write statement on those paths).
Ids are natural numbers (sqlite AUTOINCREMENT primary keys);
participant caps are integers (Python `int`).
-/

/-- Outcome categories of a submission, matching the distinct error
flashes of `respond_poll` in `app.py`. -/
inductive SubmitError where
  | pollNotAvailable
  | pollExpired
  | missingName
  | changesNotAllowed
  | capacityExceeded
  | duplicateSelection
  deriving DecidableEq, Repr

/-- A row of the `polls` table (the fields the reconciler reads). -/
structure Poll where
  id : Nat
  is_active : Bool
  expires_at : Option Nat
  allow_changes : Bool
  only_yes_no : Bool
  max_participants : Option Int
  poll_type : String
  allow_multi_bookings : Bool
  deriving DecidableEq, Repr

/-- A row of the `poll_options` table. -/
structure PollOption where
  id : Nat
  poll_id : Nat
  max_participants : Option Int
  deriving DecidableEq, Repr

/-- A row of the `poll_resources` table. -/
structure PollResource where
  id : Nat
  poll_id : Nat
  deriving DecidableEq, Repr

/-- A row of the `responses` table. -/
structure ResponseRow where
  poll_id : Nat
  option_id : Nat
  participant_name : String
  response_type : String
  deriving DecidableEq, Repr

/-- A row of the `matrix_responses` table. -/
structure MatrixRow where
  poll_id : Nat
  resource_id : Nat
  option_id : Nat
  participant_name : String
  deriving DecidableEq, Repr

/-- The persistent state the reconciler touches. -/
structure DB where
  poll_options : List PollOption
  poll_resources : List PollResource
  responses : List ResponseRow
  matrix_responses : List MatrixRow
  deriving DecidableEq, Repr

/-- Result of reading a numeric form field and running Python
`int(value)` on it after `strip()`: the field may be absent/blank,
present but not an integer (`ValueError`), or an integer. -/
inductive FormNum where
  | blank
  | notInt
  | num (n : Nat)
  deriving DecidableEq, Repr

/-- Python `str.strip()`: drop leading and trailing whitespace
(structural, so that concrete inputs evaluate in the kernel). -/
def pyStrip (s : String) : String :=
  String.mk (((s.data.dropWhile Char.isWhitespace).reverse.dropWhile
    Char.isWhitespace).reverse)

/-- The submitted HTTP form, as read by `respond_poll`:
`participant_name`, the per-option fields `option_<id>` (absent means
the code's `'no'` default applies), the matrix checkbox fields
`cell_<resId>_<optId>` (read for truthiness), and the single-choice
fields `resource_<resId>` (stripped and parsed with `int`). -/
structure SubmitForm where
  participant_name : String
  option_field : Nat → Option String
  cell_field : Nat → Nat → Bool
  resource_field : Nat → FormNum

/-! ## Store queries (the SQL helpers of `app.py`) -/

/-- `SELECT * FROM poll_options WHERE poll_id = ?`. -/
def pollOptionsOf (db : DB) (pid : Nat) : List PollOption :=
  db.poll_options.filter (fun o => o.poll_id == pid)

/-- `get_poll_resources`: `SELECT * FROM poll_resources WHERE poll_id = ?`. -/
def resourcesOf (db : DB) (pid : Nat) : List PollResource :=
  db.poll_resources.filter (fun r => r.poll_id == pid)

/-- Row filter for `get_option_booking_count`: a `yes` response row
referencing the given option (the query has no poll filter). -/
def isYesFor (oid : Nat) (r : ResponseRow) : Bool :=
  r.option_id == oid && r.response_type == "yes"

/-- List-level count of `yes` responses for an option. -/
def countYesL (l : List ResponseRow) (oid : Nat) : Nat :=
  (l.filter (isYesFor oid)).length

/-- `get_option_booking_count`: `SELECT COUNT(*) FROM responses WHERE
option_id = ? AND response_type = 'yes'`. -/
def get_option_booking_count (db : DB) (oid : Nat) : Nat :=
  countYesL db.responses oid

/-- `get_option_max_participants`: the option-level limit overrides the
poll-level default; `None` means no limit. -/
def get_option_max_participants (o : PollOption) (p : Poll) : Option Int :=
  match o.max_participants with
  | some v => some v
  | none => p.max_participants

/-- Python truthiness of the resolved cap (`if max_p:`): `None` and `0`
are falsy, so no capacity check is performed for them. -/
def capTruthy : Option Int → Bool
  | none => false
  | some v => v != 0

/-- Row filter: a matrix booking row for the given poll/resource/option. -/
def isBookingFor (pid rid oid : Nat) (r : MatrixRow) : Bool :=
  r.poll_id == pid && r.resource_id == rid && r.option_id == oid

/-- List-level per-cell matrix booking count. -/
def matCountL (l : List MatrixRow) (pid rid oid : Nat) : Nat :=
  (l.filter (isBookingFor pid rid oid)).length

/-- `get_matrix_booking_counts(poll_id)` looked up at `(rid, oid)` with
default 0: count of `matrix_responses` rows of this poll for the cell. -/
def matrix_booking_count (db : DB) (pid rid oid : Nat) : Nat :=
  matCountL db.matrix_responses pid rid oid

/-- Row filter: a standard response row of this participant in this poll. -/
def isPN (pid : Nat) (name : String) (r : ResponseRow) : Bool :=
  r.poll_id == pid && r.participant_name == name

/-- Row filter: a matrix booking row of this participant in this poll. -/
def isPNM (pid : Nat) (name : String) (r : MatrixRow) : Bool :=
  r.poll_id == pid && r.participant_name == name

/-- `SELECT * FROM responses WHERE poll_id = ? AND participant_name = ?`
tested for a first row (`fetchone`). -/
def stdHasExisting (db : DB) (pid : Nat) (name : String) : Bool :=
  db.responses.any (isPN pid name)

/-- `SELECT response_type FROM responses WHERE poll_id = ? AND
option_id = ? AND participant_name = ?` with `fetchone` (first row). -/
def stdOldResponse (db : DB) (pid oid : Nat) (name : String) : Option ResponseRow :=
  db.responses.find? (fun r =>
    r.poll_id == pid && r.option_id == oid && r.participant_name == name)

/-- The participant's existing matrix bookings for the poll
(`SELECT resource_id, option_id FROM matrix_responses WHERE ...`). -/
def matExistingRows (db : DB) (pid : Nat) (name : String) : List MatrixRow :=
  db.matrix_responses.filter (isPNM pid name)

/-- Membership of a `(resource, option)` pair in `existing_pairs`. -/
def pairInExisting (rows : List MatrixRow) (rid oid : Nat) : Bool :=
  rows.any (fun r => r.resource_id == rid && r.option_id == oid)

/-! ## The reconciler (`respond_poll`) -/

/-- `request.form.get(f'option_{id}', 'no')`. -/
def requestedType (f : SubmitForm) (oid : Nat) : String :=
  (f.option_field oid).getD "no"

/-- The `current_bookings -= 1` adjustment of the standard capacity
check: 1 when the submission replaces an existing response whose first
matching row for this option is `yes`, else 0. -/
def stdSelfSub (db : DB) (pid oid : Nat) (name : String) (existing : Bool) : Int :=
  if existing then
    match stdOldResponse db pid oid name with
    | some old => if old.response_type == "yes" then 1 else 0
    | none => 0
  else 0

/-- The capacity check of the standard path for one option: when the
requested type is `yes` and the resolved cap is truthy, the current
`yes` count minus the participant's own prior `yes` (if any) must be
strictly below the cap.  Returns `true` when the option passes. -/
def stdOptionCheck (db : DB) (p : Poll) (name : String) (existing : Bool)
    (f : SubmitForm) (o : PollOption) : Bool :=
  if requestedType f o.id == "yes" then
    match get_option_max_participants o p with
    | none => true
    | some cap =>
      if cap != 0 then
        let current : Int :=
          (get_option_booking_count db o.id : Int) - stdSelfSub db p.id o.id name existing
        decide (current < cap)
      else true
  else true

/-- Whether a requested type is persisted: `in ['yes', 'maybe', 'no']`. -/
def validType (rt : String) : Bool :=
  rt == "yes" || rt == "maybe" || rt == "no"

/-- The rows inserted by the standard write phase: one row per option of
the poll whose requested type is one of `yes`/`maybe`/`no`. -/
def stdInsertRows (pid : Nat) (name : String) (f : SubmitForm)
    (opts : List PollOption) : List ResponseRow :=
  opts.filterMap (fun o =>
    let rt := requestedType f o.id
    if validType rt then
      some { poll_id := pid, option_id := o.id, participant_name := name,
             response_type := rt }
    else none)

/-- `DELETE FROM responses WHERE poll_id = ? AND participant_name = ?`. -/
def deleteStdRows (db : DB) (pid : Nat) (name : String) : DB :=
  { db with responses := db.responses.filter (fun r => !(isPN pid name r)) }

/-- `DELETE FROM matrix_responses WHERE poll_id = ? AND participant_name = ?`. -/
def deleteMatRows (db : DB) (pid : Nat) (name : String) : DB :=
  { db with matrix_responses := db.matrix_responses.filter (fun r => !(isPNM pid name r)) }

/-- The requested selection set of a matrix submission: in multi-booking
mode every truthy `cell_<res>_<opt>` checkbox over the poll's resources
and options; in single-choice mode, per resource, the parsed integer of
`resource_<res>` (blank skipped, `ValueError` skipped via `continue`) —
note the parsed option id is NOT validated against the poll's options. -/
def matrixSelections (f : SubmitForm) (resources : List PollResource)
    (opts : List PollOption) (multi : Bool) : List (Nat × Nat) :=
  if multi then
    (resources.map (fun r =>
      opts.filterMap (fun o =>
        if f.cell_field r.id o.id then some (r.id, o.id) else none))).flatten
  else
    resources.filterMap (fun r =>
      match f.resource_field r.id with
      | FormNum.num n => some (r.id, n)
      | _ => none)

/-- The mutual-exclusion check: building `option_counts` over the
selection list and failing when some option id occurs more than once. -/
def matrixDupFail (sel : List (Nat × Nat)) : Bool :=
  sel.any (fun pr => 1 < sel.countP (fun q => q.2 == pr.2))

/-- The capacity check of the matrix path for one selected pair: unknown
option ids are skipped (`continue`), a falsy cap is skipped, otherwise
the cell count minus the participant's own prior identical pair must be
strictly below the cap. -/
def matrixPairCheck (db : DB) (p : Poll) (opts : List PollOption)
    (existingRows : List MatrixRow) (pr : Nat × Nat) : Bool :=
  match opts.find? (fun o => o.id == pr.2) with
  | none => true
  | some o =>
    match get_option_max_participants o p with
    | none => true
    | some cap =>
      if cap != 0 then
        let sub : Int := if pairInExisting existingRows pr.1 pr.2 then 1 else 0
        let current : Int := (matrix_booking_count db p.id pr.1 pr.2 : Int) - sub
        decide (current < cap)
      else true

/-- The rows inserted by the matrix write phase: one row per selected pair. -/
def matrixInsertRows (pid : Nat) (name : String)
    (sel : List (Nat × Nat)) : List MatrixRow :=
  sel.map (fun pr => { poll_id := pid, resource_id := pr.1, option_id := pr.2,
                       participant_name := name })

/-- The matrix branch of `respond_poll` (after the shared gate). -/
def respondMatrix (db : DB) (p : Poll) (name : String) (f : SubmitForm) :
    Option SubmitError × DB :=
  let resources := resourcesOf db p.id
  let opts := pollOptionsOf db p.id
  let existingRows := matExistingRows db p.id name
  let hasExisting := !existingRows.isEmpty
  if hasExisting && !p.allow_changes then (some SubmitError.changesNotAllowed, db)
  else
    let sel := matrixSelections f resources opts p.allow_multi_bookings
    if matrixDupFail sel then (some SubmitError.duplicateSelection, db)
    else if !(sel.all (fun pr => matrixPairCheck db p opts existingRows pr)) then
      (some SubmitError.capacityExceeded, db)
    else
      let db1 := if hasExisting && p.allow_changes then deleteMatRows db p.id name else db
      (none, { db1 with matrix_responses :=
                 db1.matrix_responses ++ matrixInsertRows p.id name sel })

/-- The standard branch of `respond_poll` (after the shared gate). -/
def respondStandard (db : DB) (p : Poll) (name : String) (f : SubmitForm) :
    Option SubmitError × DB :=
  let existing := stdHasExisting db p.id name
  if existing && !p.allow_changes then (some SubmitError.changesNotAllowed, db)
  else
    let opts := pollOptionsOf db p.id
    if !(opts.all (fun o => stdOptionCheck db p name existing f o)) then
      (some SubmitError.capacityExceeded, db)
    else
      let db1 := if existing && p.allow_changes then deleteStdRows db p.id name else db
      (none, { db1 with responses :=
                 db1.responses ++ stdInsertRows p.id name f opts })

/-- The expiry gate: `datetime.fromisoformat(expires_at) < datetime.now()`. -/
def expiryBlocked (p : Poll) (now : Nat) : Bool :=
  match p.expires_at with
  | none => false
  | some e => decide (e < now)

/-- `respond_poll`: active check, expiry gate, participant-name check,
then dispatch on `poll_type == 'matrix'`.  Returns the outcome and the
database state left behind; every error path returns before any write. -/
def respond_poll (db : DB) (p : Poll) (f : SubmitForm) (now : Nat) :
    Option SubmitError × DB :=
  if !p.is_active then (some SubmitError.pollNotAvailable, db)
  else if expiryBlocked p now then (some SubmitError.pollExpired, db)
  else
    let name := pyStrip f.participant_name
    if name == "" then (some SubmitError.missingName, db)
    else if p.poll_type == "matrix" then respondMatrix db p name f
    else respondStandard db p name f

/-- Database well-formedness: sqlite AUTOINCREMENT primary keys make
option ids and resource ids unique across their tables. -/
def dbWF (db : DB) : Prop :=
  (db.poll_options.map (fun o => o.id)).Nodup ∧
  (db.poll_resources.map (fun r => r.id)).Nodup

/-! ## Admin create/edit (`create_poll`, `edit_poll`): the poll-level
settings they persist -/

/-- The admin form fields that determine the persisted poll-level
settings relevant here. -/
structure AdminForm where
  title : String
  only_yes_no : Bool
  max_field : FormNum
  poll_type : String
  option_dates : List String
  resource_names : List String
  deriving DecidableEq, Repr

/-- `int(max_participants_str) if max_participants_str else None`:
blank gives `None`; a non-integer raises `ValueError` (the request
dies, nothing is committed), modelled as `none` at the outer level. -/
def parseOptInt : FormNum → Option (Option Int)
  | FormNum.blank => some none
  | FormNum.notInt => none
  | FormNum.num n => some ((n : Int))

/-- The poll-level settings written to the `polls` row. -/
structure PollSettings where
  max_participants : Option Int
  only_yes_no : Bool
  deriving DecidableEq, Repr

/-- The matrix adjustment in `create_poll`/`edit_poll`:
`only_yes_no = False` and a missing poll-level cap defaults to 1. -/
def matrixAdjust (oyn : Bool) (mp : Option Int) (isMatrix : Bool) : Bool × Option Int :=
  if isMatrix then
    (false, match mp with | none => some 1 | some v => some v)
  else (oyn, mp)

/-- `create_poll` POST handler: the poll-level settings it commits, or
`none` when nothing is committed (parse failure, empty title, no
option dates, or a matrix poll without resources). -/
def create_poll_persisted (f : AdminForm) : Option PollSettings :=
  match parseOptInt f.max_field with
  | none => none
  | some mp0 =>
    let isMatrix := f.poll_type == "matrix"
    let adj := matrixAdjust f.only_yes_no mp0 isMatrix
    if pyStrip f.title == "" then none
    else if (f.option_dates.filter (fun d => d != "")).isEmpty then none
    else if isMatrix && (f.resource_names.filter (fun n => pyStrip n != "")).isEmpty then none
    else some { max_participants := adj.2, only_yes_no := adj.1 }

/-- `edit_poll` POST handler for an existing poll `p`: the poll-level
settings it commits, or `none` when nothing is committed (parse
failure, empty title, or a matrix poll without resources — in the last
case the `UPDATE` has executed but the transaction is never committed
and is rolled back when the connection closes). -/
def edit_poll_persisted (p : Poll) (f : AdminForm) : Option PollSettings :=
  match parseOptInt f.max_field with
  | none => none
  | some mp0 =>
    if pyStrip f.title == "" then none
    else
      let isMatrix := p.poll_type == "matrix"
      let adj := matrixAdjust f.only_yes_no mp0 isMatrix
      if isMatrix && (f.resource_names.filter (fun n => pyStrip n != "")).isEmpty then none
      else some { max_participants := adj.2, only_yes_no := adj.1 }

/-! ## Counting helper lemmas -/

/-- Count of the participant's own `yes` rows for one option in one poll. -/
def ownYesL (l : List ResponseRow) (pid : Nat) (name : String) (oid : Nat) : Nat :=
  (l.filter (fun r => isPN pid name r && isYesFor oid r)).length

/-- Count of the participant's own booking rows for one cell in one poll. -/
def ownPairL (l : List MatrixRow) (pid : Nat) (name : String) (rid oid : Nat) : Nat :=
  (l.filter (fun r => isPNM pid name r && isBookingFor pid rid oid r)).length

lemma countYesL_append (a b : List ResponseRow) (oid : Nat) :
    countYesL (a ++ b) oid = countYesL a oid + countYesL b oid := by
  simp [countYesL, List.filter_append]

lemma matCountL_append (a b : List MatrixRow) (pid rid oid : Nat) :
    matCountL (a ++ b) pid rid oid = matCountL a pid rid oid + matCountL b pid rid oid := by
  simp [matCountL, List.filter_append]

lemma countYesL_filter_not_add (l : List ResponseRow) (pid : Nat) (name : String) (oid : Nat) :
    countYesL (l.filter (fun r => !(isPN pid name r))) oid
      + ownYesL l pid name oid = countYesL l oid := by
  induction l with
  | nil => simp [countYesL, ownYesL]
  | cons r t ih =>
    by_cases hp : isPN pid name r = true <;> by_cases hy : isYesFor oid r = true <;>
      simp [countYesL, ownYesL, List.filter_cons, hp, hy] at ih ⊢ <;> omega

lemma matCountL_filter_not_add (l : List MatrixRow) (pid : Nat) (name : String) (rid oid : Nat) :
    matCountL (l.filter (fun r => !(isPNM pid name r))) pid rid oid
      + ownPairL l pid name rid oid = matCountL l pid rid oid := by
  induction l with
  | nil => simp [matCountL, ownPairL]
  | cons r t ih =>
    by_cases hp : isPNM pid name r = true <;> by_cases hy : isBookingFor pid rid oid r = true <;>
      simp [matCountL, ownPairL, List.filter_cons, hp, hy] at ih ⊢ <;> omega

lemma ownYesL_le (l : List ResponseRow) (pid : Nat) (name : String) (oid : Nat) :
    ownYesL l pid name oid ≤ countYesL l oid := by
  have h := countYesL_filter_not_add l pid name oid
  omega

lemma ownPairL_le (l : List MatrixRow) (pid : Nat) (name : String) (rid oid : Nat) :
    ownPairL l pid name rid oid ≤ matCountL l pid rid oid := by
  have h := matCountL_filter_not_add l pid name rid oid
  omega

lemma mem_stdInsertRows {pid : Nat} {name : String} {f : SubmitForm}
    {opts : List PollOption} {r : ResponseRow} (h : r ∈ stdInsertRows pid name f opts) :
    r.poll_id = pid ∧ r.participant_name = name ∧ r.option_id ∈ opts.map (fun o => o.id) := by
  simp only [stdInsertRows, List.mem_filterMap] at h
  obtain ⟨o, ho, hr⟩ := h
  split at hr
  · injection hr with hr
    subst hr
    exact ⟨rfl, rfl, List.mem_map.mpr ⟨o, ho, rfl⟩⟩
  · simp at hr

lemma countYesL_stdInsertRows_not_mem (pid : Nat) (name : String) (f : SubmitForm)
    (opts : List PollOption) (oid : Nat) (h : oid ∉ opts.map (fun o => o.id)) :
    countYesL (stdInsertRows pid name f opts) oid = 0 := by
  unfold countYesL
  rw [List.filter_eq_nil_iff.mpr, List.length_nil]
  intro r hr
  obtain ⟨-, -, hmem⟩ := mem_stdInsertRows hr
  simp only [isYesFor, Bool.not_eq_true, Bool.and_eq_true, beq_iff_eq, not_and]
  intro heq
  exact absurd (heq ▸ hmem) h

lemma stdInsertRows_cons (pid : Nat) (name : String) (f : SubmitForm)
    (a : PollOption) (t : List PollOption) :
    stdInsertRows pid name f (a :: t)
      = (if validType (requestedType f a.id) then
          [ResponseRow.mk pid a.id name (requestedType f a.id)] else [])
        ++ stdInsertRows pid name f t := by
  cases h : validType (requestedType f a.id) <;>
    simp [stdInsertRows, List.filterMap_cons, h]

lemma countYesL_cons (r : ResponseRow) (t : List ResponseRow) (oid : Nat) :
    countYesL (r :: t) oid = (if isYesFor oid r then 1 else 0) + countYesL t oid := by
  cases h : isYesFor oid r <;> simp [countYesL, List.filter_cons, h] <;> omega

lemma countYesL_stdInsertRows_mem (pid : Nat) (name : String) (f : SubmitForm)
    {opts : List PollOption} (hnd : (opts.map (fun o => o.id)).Nodup)
    {o : PollOption} (ho : o ∈ opts) :
    countYesL (stdInsertRows pid name f opts) o.id
      = if requestedType f o.id == "yes" then 1 else 0 := by
  induction opts with
  | nil => cases ho
  | cons a t ih =>
    simp only [List.map_cons, List.nodup_cons] at hnd
    rw [stdInsertRows_cons, countYesL_append]
    rcases List.mem_cons.mp ho with rfl | hot
    · have htail : countYesL (stdInsertRows pid name f t) o.id = 0 :=
        countYesL_stdInsertRows_not_mem pid name f t o.id hnd.1
      rw [htail]
      cases hy : (requestedType f o.id == "yes") with
      | true =>
        have hv : validType (requestedType f o.id) = true := by
          simp [validType, hy]
        rw [hv]
        simp [countYesL, List.filter_cons, isYesFor, hy]
      | false =>
        cases hv : validType (requestedType f o.id) <;>
          simp [countYesL, List.filter_cons, isYesFor, hy]
    · have haid : a.id ≠ o.id := by
        intro heq
        exact hnd.1 (heq ▸ List.mem_map.mpr ⟨o, hot, rfl⟩)
      rw [ih hnd.2 hot]
      cases hv : validType (requestedType f a.id) <;>
        simp [countYesL, List.filter_cons, isYesFor, haid]

lemma find?_stdInsertRows (pid : Nat) (name : String) (f : SubmitForm)
    {opts : List PollOption} (hnd : (opts.map (fun o => o.id)).Nodup)
    {o : PollOption} (ho : o ∈ opts)
    (hyes : requestedType f o.id = "yes") :
    (stdInsertRows pid name f opts).find?
        (fun r => r.poll_id == pid && r.option_id == o.id && r.participant_name == name)
      = some (ResponseRow.mk pid o.id name "yes") := by
  induction opts with
  | nil => cases ho
  | cons a t ih =>
    simp only [List.map_cons, List.nodup_cons] at hnd
    rw [stdInsertRows_cons, List.find?_append]
    rcases List.mem_cons.mp ho with rfl | hot
    · have hv : validType (requestedType f o.id) = true := by
        simp [validType, hyes]
      rw [hv]
      simp [List.find?_cons, hyes]
    · have haid : a.id ≠ o.id := by
        intro heq
        exact hnd.1 (heq ▸ List.mem_map.mpr ⟨o, hot, rfl⟩)
      cases hv : validType (requestedType f a.id) <;>
        simp [List.find?_cons, haid, ih hnd.2 hot]

lemma matCountL_cons (r : MatrixRow) (t : List MatrixRow) (pid rid oid : Nat) :
    matCountL (r :: t) pid rid oid
      = (if isBookingFor pid rid oid r then 1 else 0) + matCountL t pid rid oid := by
  cases h : isBookingFor pid rid oid r <;> simp [matCountL, List.filter_cons, h] <;> omega

lemma mem_matrixInsertRows {pid : Nat} {name : String} {sel : List (Nat × Nat)}
    {r : MatrixRow} (h : r ∈ matrixInsertRows pid name sel) :
    r.poll_id = pid ∧ r.participant_name = name ∧ (r.resource_id, r.option_id) ∈ sel := by
  simp only [matrixInsertRows, List.mem_map] at h
  obtain ⟨pr, hpr, rfl⟩ := h
  exact ⟨rfl, rfl, by simpa using hpr⟩

lemma matCountL_matrixInsertRows (pid : Nat) (name : String) (sel : List (Nat × Nat))
    (rid oid : Nat) :
    matCountL (matrixInsertRows pid name sel) pid rid oid
      = sel.countP (fun q => q.1 == rid && q.2 == oid) := by
  induction sel with
  | nil => simp [matCountL, matrixInsertRows]
  | cons pr t ih =>
    have hcons : matrixInsertRows pid name (pr :: t)
        = MatrixRow.mk pid pr.1 pr.2 name :: matrixInsertRows pid name t := rfl
    rw [hcons, matCountL_cons, List.countP_cons, ih]
    cases h : (pr.1 == rid && pr.2 == oid) <;> simp [isBookingFor, h] <;> omega

lemma matCountL_matrixInsertRows_ne_poll (pid : Nat) (name : String)
    (sel : List (Nat × Nat)) (pid' rid oid : Nat) (h : pid' ≠ pid) :
    matCountL (matrixInsertRows pid name sel) pid' rid oid = 0 := by
  unfold matCountL
  rw [List.filter_eq_nil_iff.mpr, List.length_nil]
  intro r hr
  obtain ⟨hp, -, -⟩ := mem_matrixInsertRows hr
  simp [isBookingFor, hp, Ne.symm h]

lemma pairInExisting_matrixInsertRows {pid : Nat} {name : String}
    {sel : List (Nat × Nat)} {rid oid : Nat} (h : (rid, oid) ∈ sel) :
    pairInExisting (matrixInsertRows pid name sel) rid oid = true := by
  simp only [pairInExisting, List.any_eq_true]
  refine ⟨MatrixRow.mk pid rid oid name, ?_, by simp⟩
  simp only [matrixInsertRows, List.mem_map]
  exact ⟨(rid, oid), h, rfl⟩

lemma two_le_countP_of_two_mem {α : Type} (p : α → Bool) {a b : α} {l : List α}
    (ha : a ∈ l) (hb : b ∈ l) (hne : a ≠ b) (hpa : p a = true) (hpb : p b = true) :
    2 ≤ l.countP p := by
  obtain ⟨s, t, rfl⟩ := List.append_of_mem ha
  rw [List.countP_append, List.countP_cons_of_pos _ _ hpa]
  rcases List.mem_append.mp hb with hbs | hbt
  · have h1 : 1 ≤ s.countP p := List.one_le_countP_iff.mpr ⟨b, hbs, hpb⟩
    omega
  · rcases List.mem_cons.mp hbt with heq | hbt2
    · exact absurd heq.symm hne
    · have h1 : 1 ≤ t.countP p := List.one_le_countP_iff.mpr ⟨b, hbt2, hpb⟩
      omega

/-! ## Outcome classification of the two reconciler branches -/

lemma respondStandard_outcomes (db : DB) (p : Poll) (name : String) (f : SubmitForm) :
    (respondStandard db p name f).1 = none ∨
    respondStandard db p name f = (some SubmitError.changesNotAllowed, db) ∨
    respondStandard db p name f = (some SubmitError.capacityExceeded, db) := by
  unfold respondStandard
  dsimp only
  split
  · right; left; rfl
  · split
    · right; right; rfl
    · left; rfl

lemma respondMatrix_outcomes (db : DB) (p : Poll) (name : String) (f : SubmitForm) :
    (respondMatrix db p name f).1 = none ∨
    respondMatrix db p name f = (some SubmitError.changesNotAllowed, db) ∨
    respondMatrix db p name f = (some SubmitError.duplicateSelection, db) ∨
    respondMatrix db p name f = (some SubmitError.capacityExceeded, db) := by
  unfold respondMatrix
  dsimp only
  split
  · right; left; rfl
  · split
    · right; right; left; rfl
    · split
      · right; right; right; rfl
      · left; rfl

/-! ## Concrete fixtures used by witnesses and counterexamples -/

/-- An empty database. -/
def dbEmpty : DB :=
  { poll_options := [], poll_resources := [], responses := [], matrix_responses := [] }

/-- A blank submission form. -/
def formBlank : SubmitForm :=
  { participant_name := "Anna", option_field := fun _ => none,
    cell_field := fun _ _ => false, resource_field := fun _ => FormNum.blank }

/-- C9: a resolved effective cap of 0 disables capacity checking — both
the standard per-option check and the matrix per-pair check accept
regardless of the current booking count, like an absent cap. -/
theorem c9_cap_zero_unlimited (db : DB) (p : Poll) (name : String)
    (existing : Bool) (f : SubmitForm) (o : PollOption)
    (hcap : get_option_max_participants o p = some 0) :
    stdOptionCheck db p name existing f o = true ∧
    (∀ (opts : List PollOption) (existingRows : List MatrixRow) (pr : Nat × Nat),
      opts.find? (fun o2 => o2.id == pr.2) = some o →
      matrixPairCheck db p opts existingRows pr = true) := by
  constructor
  · unfold stdOptionCheck
    split
    · rw [hcap]
      simp
    · rfl
  · intro opts existingRows pr hfind
    unfold matrixPairCheck
    rw [hfind]
    dsimp only
    rw [hcap]
    simp

/-- C5: self-exclusion — a participant whose own prior first-found
response for the option is `yes` passes the standard capacity check on a
resubmission even when the option is full (count equal to the cap),
because their own `yes` is subtracted before the comparison. -/
theorem c5_self_exclusion (db : DB) (p : Poll) (f : SubmitForm) (name : String)
    (o : PollOption) (C : Int)
    (hac : p.allow_changes = true)
    (hyes : requestedType f o.id = "yes")
    (hcap : get_option_max_participants o p = some C) (hC : 1 ≤ C)
    (hcnt : (get_option_booking_count db o.id : Int) ≤ C)
    (hold : ∃ old, stdOldResponse db p.id o.id name = some old ∧
      old.response_type = "yes") :
    stdOptionCheck db p name (stdHasExisting db p.id name) f o = true := by
  obtain ⟨old, holdeq, holdyes⟩ := hold
  have hex : stdHasExisting db p.id name = true := by
    have hmem := List.mem_of_find?_eq_some holdeq
    have hprop := List.find?_some holdeq
    unfold stdHasExisting
    rw [List.any_eq_true]
    refine ⟨old, hmem, ?_⟩
    unfold isPN
    simp only [Bool.and_eq_true, beq_iff_eq] at hprop ⊢
    exact ⟨hprop.1.1, hprop.2⟩
  have hcz : (C != 0) = true := by
    simp only [bne_iff_ne, ne_eq]
    omega
  unfold stdOptionCheck
  split
  · rw [hcap]
    dsimp only
    simp only [hcz, stdSelfSub, hex, holdeq, holdyes, beq_self_eq_true, if_true,
      decide_eq_true_eq]
    omega
  · rfl

/-- C10: creating or editing a matrix poll with a blank poll-level
max-participants field persists a default cap of 1 and forces
`only_yes_no` off. -/
theorem c10_matrix_default_cap (f : AdminForm) (p : Poll)
    (hblank : f.max_field = FormNum.blank) :
    (f.poll_type = "matrix" → ∀ s, create_poll_persisted f = some s →
        s.max_participants = some 1 ∧ s.only_yes_no = false) ∧
    (p.poll_type = "matrix" → ∀ s, edit_poll_persisted p f = some s →
        s.max_participants = some 1 ∧ s.only_yes_no = false) := by
  constructor
  · intro hm s hs
    unfold create_poll_persisted at hs
    rw [hblank] at hs
    simp only [parseOptInt] at hs
    rw [hm] at hs
    simp only [matrixAdjust, beq_self_eq_true, if_true] at hs
    split at hs
    · cases hs
    · split at hs
      · cases hs
      · split at hs
        · cases hs
        · cases hs
          exact ⟨rfl, rfl⟩
  · intro hm s hs
    unfold edit_poll_persisted at hs
    rw [hblank] at hs
    simp only [parseOptInt] at hs
    split at hs
    · cases hs
    · rw [hm] at hs
      simp only [matrixAdjust, beq_self_eq_true, if_true] at hs
      split at hs
      · cases hs
      · cases hs
        exact ⟨rfl, rfl⟩

/-- An active standard poll that expires at instant 5. -/
def pollExp : Poll :=
  { id := 7, is_active := true, expires_at := some 5, allow_changes := true,
    only_yes_no := false, max_participants := none, poll_type := "standard",
    allow_multi_bookings := false }

/-- C6 counterexample: the claim says a submission arriving at the
instant `now = expiresAt` is rejected with `PollExpired`; the code uses
the strict comparison `expires < now`, so at `now = 5 = expiresAt` the
submission is accepted. -/
theorem c6_cex :
    pollExp.expires_at = some 5 ∧
    (respond_poll dbEmpty pollExp formBlank 5).1 = none := by
  constructor
  · rfl
  · rfl

/-- C6 amended: with `expiresAt = e` set, a submission fails with
`PollExpired` exactly when the poll is active and `now > e` (strictly);
at `now = e` the gate lets the submission through. -/
theorem c6_expiry_strict_boundary (db : DB) (p : Poll) (f : SubmitForm)
    (now e : Nat) (hexp : p.expires_at = some e) :
    ((respond_poll db p f now).1 = some SubmitError.pollExpired
      ↔ (p.is_active = true ∧ e < now)) := by
  have hb : expiryBlocked p now = decide (e < now) := by
    unfold expiryBlocked
    rw [hexp]
  unfold respond_poll
  cases hact : p.is_active with
  | false => simp [hact]
  | true =>
    by_cases hlt : e < now
    · simp [hact, hb, hlt]
    · simp only [hact, hb, hlt, Bool.not_true, Bool.false_eq_true, if_false,
        decide_eq_true_eq, iff_false, and_false, decide_eq_false_iff_not,
        false_and, iff_false_intro hlt]
      intro hcontra
      split at hcontra
      · simp at hcontra
      · split at hcontra
        · rcases respondMatrix_outcomes db p (pyStrip f.participant_name) f with
            h | h | h | h <;> rw [h] at hcontra <;> simp at hcontra
        · rcases respondStandard_outcomes db p (pyStrip f.participant_name) f with
            h | h | h <;> rw [h] at hcontra <;> simp at hcontra

/-- C7: with `allowChanges = false`, a second submission by a
participant who already has persisted rows for the poll (standard
responses or matrix bookings, by poll type) returns `ChangesNotAllowed`
and leaves the database completely unchanged. -/
theorem c7_no_change_rejection (db : DB) (p : Poll) (f : SubmitForm) (now : Nat)
    (hact : p.is_active = true)
    (hexp : expiryBlocked p now = false)
    (hname : ¬(pyStrip f.participant_name = ""))
    (hac : p.allow_changes = false)
    (hex : if p.poll_type = "matrix"
      then (matExistingRows db p.id (pyStrip f.participant_name)).isEmpty = false
      else stdHasExisting db p.id (pyStrip f.participant_name) = true) :
    respond_poll db p f now = (some SubmitError.changesNotAllowed, db) := by
  unfold respond_poll
  by_cases hm : p.poll_type = "matrix"
  · rw [if_pos hm] at hex
    simp only [hact, hexp, Bool.not_true, Bool.false_eq_true, if_false,
      beq_iff_eq, hname, ite_false, hm, ite_true]
    unfold respondMatrix
    dsimp only
    rw [hex, hac]
    simp
  · rw [if_neg hm] at hex
    simp only [hact, hexp, Bool.not_true, Bool.false_eq_true, if_false,
      beq_iff_eq, hname, ite_false, hm, ite_true]
    unfold respondStandard
    dsimp only
    rw [hex, hac]
    simp

/-- C2: all-or-nothing on capacity failure — when some option of a
standard submission fails its capacity check, the whole submission
fails with `CapacityExceeded` and the database is left exactly as it
was (no delete, no insert for any option). -/
theorem c2_all_or_nothing_standard (db : DB) (p : Poll) (f : SubmitForm) (now : Nat)
    (hact : p.is_active = true)
    (hexp : expiryBlocked p now = false)
    (hname : ¬(pyStrip f.participant_name = ""))
    (hpt : ¬(p.poll_type = "matrix"))
    (hnc : stdHasExisting db p.id (pyStrip f.participant_name) = true →
      p.allow_changes = true)
    (hfail : ∃ o ∈ pollOptionsOf db p.id,
      stdOptionCheck db p (pyStrip f.participant_name)
        (stdHasExisting db p.id (pyStrip f.participant_name)) f o = false) :
    respond_poll db p f now = (some SubmitError.capacityExceeded, db) := by
  unfold respond_poll
  simp only [hact, hexp, Bool.not_true, Bool.false_eq_true, if_false,
    beq_iff_eq, hname, ite_false, hpt]
  unfold respondStandard
  dsimp only
  have hchg : (stdHasExisting db p.id (pyStrip f.participant_name)
      && !p.allow_changes) = false := by
    cases hse : stdHasExisting db p.id (pyStrip f.participant_name) with
    | false => simp
    | true => rw [hnc hse]; simp
  rw [hchg]
  have hall : (pollOptionsOf db p.id).all
      (fun o => stdOptionCheck db p (pyStrip f.participant_name)
        (stdHasExisting db p.id (pyStrip f.participant_name)) f o) = false := by
    obtain ⟨o, ho, hof⟩ := hfail
    cases hallc : (pollOptionsOf db p.id).all
        (fun o => stdOptionCheck db p (pyStrip f.participant_name)
          (stdHasExisting db p.id (pyStrip f.participant_name)) f o) with
    | false => rfl
    | true =>
      exact absurd (List.all_eq_true.mp hallc o ho) (by simp [hof])
  rw [hall]
  simp

/-- C4: matrix mutual exclusion — if the selection set derived from the
form pairs the same option id with two distinct resource ids, the
submission fails with `DuplicateSelection` in either mode, regardless
of capacity, and the database is unchanged. -/
theorem c4_matrix_mutual_exclusion (db : DB) (p : Poll) (f : SubmitForm)
    (now r1 r2 o : Nat)
    (hact : p.is_active = true)
    (hexp : expiryBlocked p now = false)
    (hname : ¬(pyStrip f.participant_name = ""))
    (hpt : p.poll_type = "matrix")
    (hnc : (matExistingRows db p.id (pyStrip f.participant_name)).isEmpty = false →
      p.allow_changes = true)
    (h1 : (r1, o) ∈ matrixSelections f (resourcesOf db p.id)
      (pollOptionsOf db p.id) p.allow_multi_bookings)
    (h2 : (r2, o) ∈ matrixSelections f (resourcesOf db p.id)
      (pollOptionsOf db p.id) p.allow_multi_bookings)
    (hne : r1 ≠ r2) :
    respond_poll db p f now = (some SubmitError.duplicateSelection, db) := by
  unfold respond_poll
  simp only [hact, hexp, Bool.not_true, Bool.false_eq_true, if_false,
    beq_iff_eq, hname, ite_false, hpt, ite_true]
  unfold respondMatrix
  dsimp only
  have hchg : (!(matExistingRows db p.id (pyStrip f.participant_name)).isEmpty
      && !p.allow_changes) = false := by
    cases hse : (matExistingRows db p.id (pyStrip f.participant_name)).isEmpty with
    | true => simp
    | false => rw [hnc hse]; simp
  rw [hchg]
  have hdup : matrixDupFail (matrixSelections f (resourcesOf db p.id)
      (pollOptionsOf db p.id) p.allow_multi_bookings) = true := by
    unfold matrixDupFail
    rw [List.any_eq_true]
    refine ⟨(r1, o), h1, ?_⟩
    simp only [decide_eq_true_eq]
    have hpair : ((r1, o) : Nat × Nat) ≠ (r2, o) := by
      intro hq
      exact hne (congrArg Prod.fst hq)
    have h2c := two_le_countP_of_two_mem (fun q => q.2 == o) h1 h2 hpair
      (by simp) (by simp)
    omega
  rw [hdup]
  simp

/-- A single-choice matrix poll fixture with one resource and one option. -/
def pollMx : Poll :=
  { id := 1, is_active := true, expires_at := none, allow_changes := false,
    only_yes_no := false, max_participants := some 1, poll_type := "matrix",
    allow_multi_bookings := false }

/-- Its only resource. -/
def resMx : PollResource := { id := 1, poll_id := 1 }

/-- Its only option. -/
def optMx : PollOption := { id := 10, poll_id := 1, max_participants := none }

/-- Fresh database holding only the matrix poll's rows. -/
def dbMx : DB :=
  { poll_options := [optMx], poll_resources := [resMx], responses := [],
    matrix_responses := [] }

/-- A single-choice form selecting the unknown option id 999 for resource 1. -/
def formRogue : SubmitForm :=
  { participant_name := "Mallory", option_field := fun _ => none,
    cell_field := fun _ _ => false,
    resource_field := fun rid => if rid == 1 then FormNum.num 999 else FormNum.blank }

/-- C3 (code bug): in single-choice mode the parsed option id of
`resource_<id>` is never validated against the poll's options — the
capacity loop skips it (`continue`) but the insert persists it, so a
submission naming the unknown option id 999 succeeds and stores a
`matrix_responses` row referencing an option that does not belong to
the poll (contradicting both the spec and the declared FOREIGN KEY). -/
theorem c3_unknown_option_persisted :
    (respond_poll dbMx pollMx formRogue 0).1 = none ∧
    (respond_poll dbMx pollMx formRogue 0).2.matrix_responses
      = [MatrixRow.mk 1 1 999 "Mallory"] ∧
    ¬(999 ∈ (pollOptionsOf dbMx 1).map (fun o => o.id)) := by
  refine ⟨rfl, rfl, by decide⟩

/-! ## Witness fixtures -/

/-- A standard poll (id 3) that allows changes. -/
def pollStdCap : Poll :=
  { id := 3, is_active := true, expires_at := none, allow_changes := true,
    only_yes_no := false, max_participants := none, poll_type := "standard",
    allow_multi_bookings := false }

/-- Its option with an option-level cap of 1. -/
def optCap : PollOption := { id := 30, poll_id := 3, max_participants := some 1 }

/-- An existing `yes` row by another participant, filling the only slot. -/
def rowBob : ResponseRow :=
  { poll_id := 3, option_id := 30, participant_name := "Bob", response_type := "yes" }

/-- Database in which option 30 is fully booked by Bob. -/
def dbStdCap : DB :=
  { poll_options := [optCap], poll_resources := [], responses := [rowBob],
    matrix_responses := [] }

/-- A form requesting `yes` for option 30. -/
def formYes30 : SubmitForm :=
  { participant_name := "Ann",
    option_field := fun oid => if oid == 30 then some "yes" else none,
    cell_field := fun _ _ => false, resource_field := fun _ => FormNum.blank }

theorem c2_witness :
    respond_poll dbStdCap pollStdCap formYes30 0
      = (some SubmitError.capacityExceeded, dbStdCap) :=
  c2_all_or_nothing_standard dbStdCap pollStdCap formYes30 0 rfl rfl
    (by decide) (by decide) (fun _ => rfl) ⟨optCap, by decide, by decide⟩

/-- A second resource for the matrix fixture poll. -/
def resMxB : PollResource := { id := 2, poll_id := 1 }

/-- The matrix fixture database with two resources. -/
def dbMx2 : DB :=
  { poll_options := [optMx], poll_resources := [resMx, resMxB], responses := [],
    matrix_responses := [] }

/-- A single-choice form selecting option 10 for both resources. -/
def formDup : SubmitForm :=
  { participant_name := "Dana", option_field := fun _ => none,
    cell_field := fun _ _ => false, resource_field := fun _ => FormNum.num 10 }

theorem c4_witness :
    respond_poll dbMx2 pollMx formDup 0
      = (some SubmitError.duplicateSelection, dbMx2) :=
  c4_matrix_mutual_exclusion dbMx2 pollMx formDup 0 1 2 10 rfl rfl
    (by decide) rfl (fun h => absurd h (by decide))
    (by decide) (by decide) (by decide)

/-- A standard poll (id 5) allowing changes, for the self-exclusion witness. -/
def pollSelf : Poll :=
  { id := 5, is_active := true, expires_at := none, allow_changes := true,
    only_yes_no := false, max_participants := none, poll_type := "standard",
    allow_multi_bookings := false }

/-- Its option with cap 1. -/
def optSelf : PollOption := { id := 40, poll_id := 5, max_participants := some 1 }

/-- Carl's own `yes` row occupying the only slot. -/
def rowCarl : ResponseRow :=
  { poll_id := 5, option_id := 40, participant_name := "Carl", response_type := "yes" }

/-- Database in which Carl holds the last slot of option 40. -/
def dbSelf : DB :=
  { poll_options := [optSelf], poll_resources := [], responses := [rowCarl],
    matrix_responses := [] }

/-- Carl resubmitting the same `yes`. -/
def formYes40 : SubmitForm :=
  { participant_name := "Carl",
    option_field := fun oid => if oid == 40 then some "yes" else none,
    cell_field := fun _ _ => false, resource_field := fun _ => FormNum.blank }

theorem c5_witness :
    stdOptionCheck dbSelf pollSelf "Carl" (stdHasExisting dbSelf pollSelf.id "Carl")
      formYes40 optSelf = true :=
  c5_self_exclusion dbSelf pollSelf formYes40 "Carl" optSelf 1 rfl rfl rfl
    (by decide) (by decide) ⟨rowCarl, by decide, rfl⟩

theorem c6_witness :
    ((respond_poll dbEmpty pollExp formBlank 6).1 = some SubmitError.pollExpired
      ↔ (pollExp.is_active = true ∧ 5 < 6)) :=
  c6_expiry_strict_boundary dbEmpty pollExp formBlank 6 5 rfl

/-- A standard poll (id 4) that forbids changes. -/
def pollNoCh : Poll :=
  { id := 4, is_active := true, expires_at := none, allow_changes := false,
    only_yes_no := false, max_participants := none, poll_type := "standard",
    allow_multi_bookings := false }

/-- Anna's persisted row from her first submission to poll 4. -/
def rowAnn : ResponseRow :=
  { poll_id := 4, option_id := 50, participant_name := "Anna", response_type := "no" }

/-- Database holding Anna's first submission. -/
def dbNoCh : DB :=
  { poll_options := [PollOption.mk 50 4 none], poll_resources := [],
    responses := [rowAnn], matrix_responses := [] }

theorem c7_witness :
    respond_poll dbNoCh pollNoCh formBlank 0
      = (some SubmitError.changesNotAllowed, dbNoCh) :=
  c7_no_change_rejection dbNoCh pollNoCh formBlank 0 rfl rfl (by decide) rfl
    (by rw [if_neg (by decide : ¬pollNoCh.poll_type = "matrix")]; decide)

/-- An option whose option-level cap is 0. -/
def optZero : PollOption := { id := 60, poll_id := 5, max_participants := some 0 }

theorem c9_witness :
    get_option_max_participants optZero pollSelf = some 0 ∧
    stdOptionCheck dbEmpty pollSelf "Ann" false formBlank optZero = true :=
  ⟨rfl, (c9_cap_zero_unlimited dbEmpty pollSelf "Ann" false formBlank optZero rfl).1⟩

/-- An admin form creating a matrix poll with a blank max-participants field. -/
def formAdminM : AdminForm :=
  { title := "Shift plan", only_yes_no := true, max_field := FormNum.blank,
    poll_type := "matrix", option_dates := ["2025-01-01"],
    resource_names := ["Room A"] }

theorem c10_witness :
    (PollSettings.mk (some 1) false).max_participants = some 1 ∧
    (PollSettings.mk (some 1) false).only_yes_no = false :=
  (c10_matrix_default_cap formAdminM pollMx rfl).1 rfl
    (PollSettings.mk (some 1) false) (by decide)

/-! ## Support lemmas for the capacity-preservation and idempotence proofs -/

lemma ownYesL_eq_zero_of_not_existing {db : DB} {pid : Nat} {name : String}
    (h : stdHasExisting db pid name = false) (oid : Nat) :
    ownYesL db.responses pid name oid = 0 := by
  unfold ownYesL
  rw [List.filter_eq_nil_iff.mpr, List.length_nil]
  intro r hr
  cases hq : isPN pid name r with
  | false => simp [hq]
  | true =>
    have htrue : stdHasExisting db pid name = true := by
      unfold stdHasExisting
      rw [List.any_eq_true]
      exact ⟨r, hr, hq⟩
    rw [htrue] at h
    cases h

lemma ownPairL_eq_zero_of_not_existing {db : DB} {pid : Nat} {name : String}
    (h : (matExistingRows db pid name).isEmpty = true) (rid oid : Nat) :
    ownPairL db.matrix_responses pid name rid oid = 0 := by
  unfold ownPairL
  rw [List.filter_eq_nil_iff.mpr, List.length_nil]
  intro r hr
  cases hq : isPNM pid name r with
  | false => simp [hq]
  | true =>
    have hmem : r ∈ matExistingRows db pid name := by
      unfold matExistingRows
      exact List.mem_filter.mpr ⟨hr, hq⟩
    rw [List.isEmpty_eq_true] at h
    rw [h] at hmem
    cases hmem

lemma stdSelfSub_bounds (db : DB) (pid oid : Nat) (name : String) (E : Bool) :
    stdSelfSub db pid oid name E = 0 ∨
    (stdSelfSub db pid oid name E = 1 ∧ 1 ≤ ownYesL db.responses pid name oid) := by
  unfold stdSelfSub
  cases E with
  | false => left; rfl
  | true =>
    cases hfind : stdOldResponse db pid oid name with
    | none => left; rfl
    | some old =>
      cases hy : (old.response_type == "yes") with
      | false => left; simp [hy]
      | true =>
        right
        refine ⟨by simp [hy], ?_⟩
        have hmem := List.mem_of_find?_eq_some hfind
        have hprop := List.find?_some hfind
        simp only [Bool.and_eq_true, beq_iff_eq] at hprop
        have hfmem : old ∈ db.responses.filter
            (fun r => isPN pid name r && isYesFor oid r) := by
          refine List.mem_filter.mpr ⟨hmem, ?_⟩
          simp only [isPN, isYesFor, Bool.and_eq_true, beq_iff_eq]
          exact ⟨⟨hprop.1.1, hprop.2⟩, hprop.1.2, by simpa using hy⟩
        unfold ownYesL
        have := List.length_pos_of_mem hfmem
        omega

lemma pairInExisting_le_ownPair {db : DB} {pid : Nat} {name : String} {rid oid : Nat}
    (h : pairInExisting (matExistingRows db pid name) rid oid = true) :
    1 ≤ ownPairL db.matrix_responses pid name rid oid := by
  unfold pairInExisting at h
  rw [List.any_eq_true] at h
  obtain ⟨r, hr, hq⟩ := h
  unfold matExistingRows at hr
  obtain ⟨hmem, hpn⟩ := List.mem_filter.mp hr
  simp only [Bool.and_eq_true, beq_iff_eq] at hq
  simp only [isPNM, Bool.and_eq_true, beq_iff_eq] at hpn
  have hfmem : r ∈ db.matrix_responses.filter
      (fun r2 => isPNM pid name r2 && isBookingFor pid rid oid r2) := by
    refine List.mem_filter.mpr ⟨hmem, ?_⟩
    simp [isPNM, isBookingFor, hpn.1, hpn.2, hq.1, hq.2]
  unfold ownPairL
  have := List.length_pos_of_mem hfmem
  omega

lemma stdOptionCheck_yes_lt {db : DB} {p : Poll} {name : String} {E : Bool}
    {f : SubmitForm} {o : PollOption} {C : Int}
    (hyes : (requestedType f o.id == "yes") = true)
    (hcap : get_option_max_participants o p = some C) (hC0 : C ≠ 0)
    (hchk : stdOptionCheck db p name E f o = true) :
    (get_option_booking_count db o.id : Int) - stdSelfSub db p.id o.id name E < C := by
  unfold stdOptionCheck at hchk
  rw [hyes] at hchk
  simp only [if_true] at hchk
  rw [hcap] at hchk
  dsimp only at hchk
  have hcz : (C != 0) = true := by simp [hC0]
  rw [hcz] at hchk
  simp only [if_true, decide_eq_true_eq] at hchk
  exact hchk

lemma find?_option_of_nodup {opts : List PollOption}
    (hnd : (opts.map (fun o => o.id)).Nodup) {o : PollOption} (ho : o ∈ opts) :
    opts.find? (fun o2 => o2.id == o.id) = some o := by
  induction opts with
  | nil => cases ho
  | cons a t ih =>
    simp only [List.map_cons, List.nodup_cons] at hnd
    rcases List.mem_cons.mp ho with rfl | hot
    · simp [List.find?_cons]
    · have haid : a.id ≠ o.id := by
        intro heq
        exact hnd.1 (heq ▸ List.mem_map.mpr ⟨o, hot, rfl⟩)
      have := ih hnd.2 hot
      simp [List.find?_cons, haid, this]

lemma matrixPairCheck_lt {db : DB} {p : Poll} {opts : List PollOption}
    {existingRows : List MatrixRow} {rid : Nat} {o : PollOption} {C : Int}
    (hfind : opts.find? (fun o2 => o2.id == o.id) = some o)
    (hcap : get_option_max_participants o p = some C) (hC0 : C ≠ 0)
    (hchk : matrixPairCheck db p opts existingRows (rid, o.id) = true) :
    (matrix_booking_count db p.id rid o.id : Int)
      - (if pairInExisting existingRows rid o.id then 1 else 0) < C := by
  unfold matrixPairCheck at hchk
  rw [hfind] at hchk
  dsimp only at hchk
  rw [hcap] at hchk
  dsimp only at hchk
  have hcz : (C != 0) = true := by simp [hC0]
  rw [hcz] at hchk
  simp only [if_true, decide_eq_true_eq] at hchk
  exact hchk

lemma matCountL_filter_not_other (l : List MatrixRow) (pid : Nat) (name : String)
    (pid' rid oid : Nat) (h : pid' ≠ pid) :
    matCountL (l.filter (fun r => !(isPNM pid name r))) pid' rid oid
      = matCountL l pid' rid oid := by
  induction l with
  | nil => rfl
  | cons r t ih =>
    cases hpn : isPNM pid name r with
    | false =>
      rw [List.filter_cons_of_pos (by simp [hpn]), matCountL_cons, matCountL_cons, ih]
    | true =>
      rw [List.filter_cons_of_neg (by simp [hpn]), ih]
      have hbk : isBookingFor pid' rid oid r = false := by
        cases hq : isBookingFor pid' rid oid r with
        | false => rfl
        | true =>
          simp only [isPNM, Bool.and_eq_true, beq_iff_eq] at hpn
          simp only [isBookingFor, Bool.and_eq_true, beq_iff_eq] at hq
          exact absurd (hq.1.1.symm.trans hpn.1) h
      rw [matCountL_cons, hbk]
      simp

lemma respondStandard_capacity (db : DB) (p : Poll) (name : String) (f : SubmitForm)
    (hwf : dbWF db) (db2 : DB)
    (hok : respondStandard db p name f = (none, db2)) :
    (∀ o ∈ db.poll_options, o.poll_id = p.id → ∀ C : Int,
      get_option_max_participants o p = some C → 1 ≤ C →
      (get_option_booking_count db o.id : Int) ≤ C →
      (get_option_booking_count db2 o.id : Int) ≤ C) ∧
    (∀ oid : Nat, oid ∉ (pollOptionsOf db p.id).map (fun o => o.id) →
      get_option_booking_count db2 oid ≤ get_option_booking_count db oid) ∧
    db2.matrix_responses = db.matrix_responses := by
  unfold respondStandard at hok
  dsimp only at hok
  split at hok
  · exact absurd (congrArg Prod.fst hok) (by simp)
  · split at hok
    · exact absurd (congrArg Prod.fst hok) (by simp)
    · rename_i h1 h2
      have hdb2 := congrArg Prod.snd hok
      dsimp only at hdb2
      have hall : (pollOptionsOf db p.id).all
          (fun o => stdOptionCheck db p name (stdHasExisting db p.id name) f o) = true := by
        cases hq : (pollOptionsOf db p.id).all
            (fun o => stdOptionCheck db p name (stdHasExisting db p.id name) f o) with
        | true => rfl
        | false => exact absurd (by rw [hq]; rfl) h2
      have hEok : stdHasExisting db p.id name = true → p.allow_changes = true := by
        intro hE
        cases hac : p.allow_changes with
        | true => rfl
        | false => exact absurd (by rw [hE, hac]; rfl) h1
      have hresp : db2.responses
          = (if (stdHasExisting db p.id name && p.allow_changes) = true
              then deleteStdRows db p.id name else db).responses
            ++ stdInsertRows p.id name f (pollOptionsOf db p.id) := by
        rw [← hdb2]
      have hG1 : ∀ oid,
          countYesL (if (stdHasExisting db p.id name && p.allow_changes) = true
              then deleteStdRows db p.id name else db).responses oid
            + ownYesL db.responses p.id name oid = countYesL db.responses oid := by
        intro oid
        by_cases hEac : (stdHasExisting db p.id name && p.allow_changes) = true
        · rw [if_pos hEac]
          exact countYesL_filter_not_add db.responses p.id name oid
        · rw [if_neg hEac]
          have hEfalse : stdHasExisting db p.id name = false := by
            cases hEq : stdHasExisting db p.id name with
            | false => rfl
            | true => exact absurd (by rw [hEq, hEok hEq]; rfl) hEac
          rw [ownYesL_eq_zero_of_not_existing hEfalse]
          omega
      have hgb : ∀ oid, get_option_booking_count db oid = countYesL db.responses oid :=
        fun _ => rfl
      refine ⟨?_, ?_, ?_⟩
      · intro o ho hpo C hcap hC hpre
        have ho_opts : o ∈ pollOptionsOf db p.id :=
          List.mem_filter.mpr ⟨ho, by simp [hpo]⟩
        have hnd : ((pollOptionsOf db p.id).map (fun o => o.id)).Nodup :=
          hwf.1.sublist ((List.filter_sublist _).map _)
        have hchk := List.all_eq_true.mp hall o ho_opts
        have hcnt2 : get_option_booking_count db2 o.id
            = countYesL (if (stdHasExisting db p.id name && p.allow_changes) = true
                then deleteStdRows db p.id name else db).responses o.id
              + countYesL (stdInsertRows p.id name f (pollOptionsOf db p.id)) o.id := by
          unfold get_option_booking_count
          rw [hresp, countYesL_append]
        have hG := hG1 o.id
        cases hyes : (requestedType f o.id == "yes") with
        | true =>
          have hins : countYesL (stdInsertRows p.id name f (pollOptionsOf db p.id)) o.id
              = 1 := by
            rw [countYesL_stdInsertRows_mem p.id name f hnd ho_opts, hyes]
            rfl
          have hlt := stdOptionCheck_yes_lt hyes hcap (by omega) hchk
          have hgb2 := hgb o.id
          rcases stdSelfSub_bounds db p.id o.id name (stdHasExisting db p.id name)
            with hs | hs
          · rw [hs] at hlt
            omega
          · rw [hs.1] at hlt
            have hown := hs.2
            omega
        | false =>
          have hins : countYesL (stdInsertRows p.id name f (pollOptionsOf db p.id)) o.id
              = 0 := by
            rw [countYesL_stdInsertRows_mem p.id name f hnd ho_opts, hyes]
            rfl
          have hgb2 := hgb o.id
          omega
      · intro oid hoid
        have hins := countYesL_stdInsertRows_not_mem p.id name f (pollOptionsOf db p.id)
          oid hoid
        have hG := hG1 oid
        have hcnt2 : get_option_booking_count db2 oid
            = countYesL (if (stdHasExisting db p.id name && p.allow_changes) = true
                then deleteStdRows db p.id name else db).responses oid
              + countYesL (stdInsertRows p.id name f (pollOptionsOf db p.id)) oid := by
          unfold get_option_booking_count
          rw [hresp, countYesL_append]
        have hgb2 := hgb oid
        omega
      · rw [← hdb2]
        by_cases hEac : (stdHasExisting db p.id name && p.allow_changes) = true <;>
          simp [hEac, deleteStdRows]

lemma respondMatrix_capacity (db : DB) (p : Poll) (name : String) (f : SubmitForm)
    (hwf : dbWF db) (db2 : DB)
    (hok : respondMatrix db p name f = (none, db2)) :
    (∀ o ∈ db.poll_options, o.poll_id = p.id → ∀ rid : Nat, ∀ C : Int,
      get_option_max_participants o p = some C → 1 ≤ C →
      (matrix_booking_count db p.id rid o.id : Int) ≤ C →
      (matrix_booking_count db2 p.id rid o.id : Int) ≤ C) ∧
    (∀ pid rid oid : Nat, pid ≠ p.id →
      matrix_booking_count db2 pid rid oid = matrix_booking_count db pid rid oid) ∧
    db2.responses = db.responses := by
  unfold respondMatrix at hok
  dsimp only at hok
  split at hok
  · exact absurd (congrArg Prod.fst hok) (by simp)
  · split at hok
    · exact absurd (congrArg Prod.fst hok) (by simp)
    · split at hok
      · exact absurd (congrArg Prod.fst hok) (by simp)
      · rename_i h1 h2 h3
        have hdb2 := congrArg Prod.snd hok
        dsimp only at hdb2
        have hall : (matrixSelections f (resourcesOf db p.id) (pollOptionsOf db p.id)
            p.allow_multi_bookings).all
            (fun pr => matrixPairCheck db p (pollOptionsOf db p.id)
              (matExistingRows db p.id name) pr) = true := by
          cases hq : (matrixSelections f (resourcesOf db p.id) (pollOptionsOf db p.id)
              p.allow_multi_bookings).all
              (fun pr => matrixPairCheck db p (pollOptionsOf db p.id)
                (matExistingRows db p.id name) pr) with
          | true => rfl
          | false => exact absurd (by rw [hq]; rfl) h3
        have hdup : matrixDupFail (matrixSelections f (resourcesOf db p.id)
            (pollOptionsOf db p.id) p.allow_multi_bookings) = false := by
          cases hq : matrixDupFail (matrixSelections f (resourcesOf db p.id)
              (pollOptionsOf db p.id) p.allow_multi_bookings) with
          | false => rfl
          | true => exact absurd hq h2
        have hEok : (matExistingRows db p.id name).isEmpty = false →
            p.allow_changes = true := by
          intro hE
          cases hac : p.allow_changes with
          | true => rfl
          | false => exact absurd (by rw [hE, hac]; rfl) h1
        have hmatresp : db2.matrix_responses
            = (if (!(matExistingRows db p.id name).isEmpty && p.allow_changes) = true
                then deleteMatRows db p.id name else db).matrix_responses
              ++ matrixInsertRows p.id name (matrixSelections f (resourcesOf db p.id)
                  (pollOptionsOf db p.id) p.allow_multi_bookings) := by
          rw [← hdb2]
        have hG1 : ∀ rid oid,
            matCountL (if (!(matExistingRows db p.id name).isEmpty
                && p.allow_changes) = true
                then deleteMatRows db p.id name else db).matrix_responses p.id rid oid
              + ownPairL db.matrix_responses p.id name rid oid
              = matCountL db.matrix_responses p.id rid oid := by
          intro rid oid
          by_cases hEac : (!(matExistingRows db p.id name).isEmpty
              && p.allow_changes) = true
          · rw [if_pos hEac]
            exact matCountL_filter_not_add db.matrix_responses p.id name rid oid
          · rw [if_neg hEac]
            have hEmp : (matExistingRows db p.id name).isEmpty = true := by
              cases hEq : (matExistingRows db p.id name).isEmpty with
              | true => rfl
              | false => exact absurd (by rw [hEq, hEok hEq]; rfl) hEac
            rw [ownPairL_eq_zero_of_not_existing hEmp]
            omega
        have hGother : ∀ pid rid oid, pid ≠ p.id →
            matCountL (if (!(matExistingRows db p.id name).isEmpty
                && p.allow_changes) = true
                then deleteMatRows db p.id name else db).matrix_responses pid rid oid
              = matCountL db.matrix_responses pid rid oid := by
          intro pid rid oid hne
          by_cases hEac : (!(matExistingRows db p.id name).isEmpty
              && p.allow_changes) = true
          · rw [if_pos hEac]
            exact matCountL_filter_not_other db.matrix_responses p.id name pid rid oid hne
          · rw [if_neg hEac]
        have hsel_mult : ∀ r2 o2 : Nat,
            ((r2, o2) : Nat × Nat) ∈ matrixSelections f (resourcesOf db p.id)
              (pollOptionsOf db p.id) p.allow_multi_bookings →
            (matrixSelections f (resourcesOf db p.id) (pollOptionsOf db p.id)
              p.allow_multi_bookings).countP (fun q => q.1 == r2 && q.2 == o2) = 1 := by
          intro r2 o2 hmem
          have hlow : 1 ≤ (matrixSelections f (resourcesOf db p.id) (pollOptionsOf db p.id)
              p.allow_multi_bookings).countP (fun q => q.1 == r2 && q.2 == o2) :=
            List.one_le_countP_iff.mpr ⟨(r2, o2), hmem, by simp⟩
          have hup : (matrixSelections f (resourcesOf db p.id) (pollOptionsOf db p.id)
              p.allow_multi_bookings).countP (fun q => q.1 == r2 && q.2 == o2)
              ≤ (matrixSelections f (resourcesOf db p.id) (pollOptionsOf db p.id)
              p.allow_multi_bookings).countP (fun q => q.2 == o2) := by
            refine List.countP_mono_left ?_
            intro q hq hpq
            simp only [Bool.and_eq_true, beq_iff_eq] at hpq
            simp [hpq.2]
          have hnotdup : ¬(1 < (matrixSelections f (resourcesOf db p.id)
              (pollOptionsOf db p.id) p.allow_multi_bookings).countP
                (fun q => q.2 == o2)) := by
            unfold matrixDupFail at hdup
            have := List.any_eq_false.mp hdup (r2, o2) hmem
            simpa using this
          omega
        refine ⟨?_, ?_, ?_⟩
        · intro o ho hpo rid C hcap hC hpre
          have ho_opts : o ∈ pollOptionsOf db p.id :=
            List.mem_filter.mpr ⟨ho, by simp [hpo]⟩
          have hnd : ((pollOptionsOf db p.id).map (fun o => o.id)).Nodup :=
            hwf.1.sublist ((List.filter_sublist _).map _)
          have hcnt2 : matrix_booking_count db2 p.id rid o.id
              = matCountL (if (!(matExistingRows db p.id name).isEmpty
                  && p.allow_changes) = true
                  then deleteMatRows db p.id name else db).matrix_responses p.id rid o.id
                + matCountL (matrixInsertRows p.id name (matrixSelections f
                    (resourcesOf db p.id) (pollOptionsOf db p.id)
                    p.allow_multi_bookings)) p.id rid o.id := by
            unfold matrix_booking_count
            rw [hmatresp, matCountL_append]
          have hinsc := matCountL_matrixInsertRows p.id name (matrixSelections f
            (resourcesOf db p.id) (pollOptionsOf db p.id) p.allow_multi_bookings) rid o.id
          have hG := hG1 rid o.id
          have hgb : matrix_booking_count db p.id rid o.id
              = matCountL db.matrix_responses p.id rid o.id := rfl
          by_cases hmem : ((rid, o.id) : Nat × Nat) ∈ matrixSelections f
              (resourcesOf db p.id) (pollOptionsOf db p.id) p.allow_multi_bookings
          · have hm1 := hsel_mult rid o.id hmem
            have hchk := List.all_eq_true.mp hall (rid, o.id) hmem
            have hfind := find?_option_of_nodup hnd ho_opts
            have hlt := matrixPairCheck_lt hfind hcap (by omega) hchk
            cases hpe : pairInExisting (matExistingRows db p.id name) rid o.id with
            | true =>
              rw [hpe] at hlt
              simp only [if_true] at hlt
              have hown := pairInExisting_le_ownPair hpe
              omega
            | false =>
              rw [hpe] at hlt
              simp only [Bool.false_eq_true, if_false] at hlt
              omega
          · have hcount0 : (matrixSelections f (resourcesOf db p.id)
                (pollOptionsOf db p.id) p.allow_multi_bookings).countP
                  (fun q => q.1 == rid && q.2 == o.id) = 0 := by
              rw [List.countP_eq_zero]
              intro q hq hpq
              simp only [Bool.and_eq_true, beq_iff_eq] at hpq
              have hq2 : q = (rid, o.id) := Prod.ext hpq.1 hpq.2
              exact hmem (hq2 ▸ hq)
            omega
        · intro pid rid oid hne
          have hcnt2 : matrix_booking_count db2 pid rid oid
              = matCountL (if (!(matExistingRows db p.id name).isEmpty
                  && p.allow_changes) = true
                  then deleteMatRows db p.id name else db).matrix_responses pid rid oid
                + matCountL (matrixInsertRows p.id name (matrixSelections f
                    (resourcesOf db p.id) (pollOptionsOf db p.id)
                    p.allow_multi_bookings)) pid rid oid := by
            unfold matrix_booking_count
            rw [hmatresp, matCountL_append]
          have hins0 := matCountL_matrixInsertRows_ne_poll p.id name (matrixSelections f
            (resourcesOf db p.id) (pollOptionsOf db p.id) p.allow_multi_bookings)
            pid rid oid hne
          have hbase := hGother pid rid oid hne
          have hgb : matrix_booking_count db pid rid oid
              = matCountL db.matrix_responses pid rid oid := rfl
          omega
        · rw [← hdb2]
          by_cases hEac : (!(matExistingRows db p.id name).isEmpty
              && p.allow_changes) = true <;>
            simp [hEac, deleteMatRows]

/-- Alice books option 10 on resource 1 (single-choice form). -/
def formSelA : SubmitForm :=
  { participant_name := "Alice", option_field := fun _ => none,
    cell_field := fun _ _ => false,
    resource_field := fun rid => if rid == 1 then FormNum.num 10 else FormNum.blank }

/-- Bert books option 10 on resource 2 (single-choice form). -/
def formSelB : SubmitForm :=
  { participant_name := "Bert", option_field := fun _ => none,
    cell_field := fun _ _ => false,
    resource_field := fun rid => if rid == 2 then FormNum.num 10 else FormNum.blank }

/-- Database holding only the cap-0 option of poll 5. -/
def dbZero : DB :=
  { poll_options := [optZero], poll_resources := [], responses := [],
    matrix_responses := [] }

/-- A form requesting `yes` for the cap-0 option 60. -/
def formYes60 : SubmitForm :=
  { participant_name := "Ann",
    option_field := fun oid => if oid == 60 then some "yes" else none,
    cell_field := fun _ _ => false, resource_field := fun _ => FormNum.blank }

/-- C1 counterexample: (a) on a matrix poll with effective cap 1 and two
resources, two successful submissions leave two `MatrixBooking` rows
referencing the same option — the code caps each (resource, option)
cell separately, not the option total; (b) on a standard poll an option
with finite cap 0 accepts a `yes` (truthiness skips the check), leaving
1 > 0 rows.  Both violate the claim as stated. -/
theorem c1_cex :
    (get_option_max_participants optMx pollMx = some 1 ∧
     (respond_poll dbMx2 pollMx formSelA 0).1 = none ∧
     (respond_poll (respond_poll dbMx2 pollMx formSelA 0).2 pollMx formSelB 0).1
       = none ∧
     ((respond_poll (respond_poll dbMx2 pollMx formSelA 0).2 pollMx
         formSelB 0).2.matrix_responses.filter (fun r => r.option_id == 10)).length
       = 2) ∧
    (get_option_max_participants optZero pollSelf = some 0 ∧
     (respond_poll dbZero pollSelf formYes60 0).1 = none ∧
     get_option_booking_count (respond_poll dbZero pollSelf formYes60 0).2 60 = 1) :=
  ⟨⟨rfl, rfl, rfl, rfl⟩, rfl, rfl, rfl⟩

/-- C1 amended: after every successful submission, for every option of
the submitted poll with resolved effective cap C ≥ 1 (cap 0 behaves as
no cap), the per-option `yes` count (standard) and every per-(resource,
option) cell count (matrix) stay bounded by C whenever they were
bounded before; counts for options outside the poll, and matrix counts
of other polls, do not increase. -/
theorem c1_capacity_per_cell_preserved (db : DB) (p : Poll) (f : SubmitForm)
    (now : Nat) (hwf : dbWF db) (db2 : DB)
    (hok : respond_poll db p f now = (none, db2)) :
    (∀ o ∈ db.poll_options, o.poll_id = p.id → ∀ C : Int,
      get_option_max_participants o p = some C → 1 ≤ C →
      (get_option_booking_count db o.id : Int) ≤ C →
      (get_option_booking_count db2 o.id : Int) ≤ C) ∧
    (∀ o ∈ db.poll_options, o.poll_id = p.id → ∀ rid : Nat, ∀ C : Int,
      get_option_max_participants o p = some C → 1 ≤ C →
      (matrix_booking_count db p.id rid o.id : Int) ≤ C →
      (matrix_booking_count db2 p.id rid o.id : Int) ≤ C) ∧
    (∀ oid : Nat, oid ∉ (pollOptionsOf db p.id).map (fun o => o.id) →
      get_option_booking_count db2 oid ≤ get_option_booking_count db oid) ∧
    (∀ pid rid oid : Nat, pid ≠ p.id →
      matrix_booking_count db2 pid rid oid = matrix_booking_count db pid rid oid) := by
  unfold respond_poll at hok
  dsimp only at hok
  split at hok
  · exact absurd (congrArg Prod.fst hok) (by simp)
  · split at hok
    · exact absurd (congrArg Prod.fst hok) (by simp)
    · split at hok
      · exact absurd (congrArg Prod.fst hok) (by simp)
      · split at hok
        · have h := respondMatrix_capacity db p (pyStrip f.participant_name) f hwf db2 hok
          refine ⟨?_, h.1, ?_, h.2.1⟩
          · intro o ho hpo C hcap hC hpre
            have heq : get_option_booking_count db2 o.id
                = get_option_booking_count db o.id := by
              unfold get_option_booking_count
              rw [h.2.2]
            rw [heq]
            exact hpre
          · intro oid hoid
            have heq : get_option_booking_count db2 oid
                = get_option_booking_count db oid := by
              unfold get_option_booking_count
              rw [h.2.2]
            omega
        · have h := respondStandard_capacity db p (pyStrip f.participant_name) f hwf db2 hok
          refine ⟨h.1, ?_, h.2.1, ?_⟩
          · intro o ho hpo rid C hcap hC hpre
            have heq : matrix_booking_count db2 p.id rid o.id
                = matrix_booking_count db p.id rid o.id := by
              unfold matrix_booking_count
              rw [h.2.2]
            rw [heq]
            exact hpre
          · intro pid rid oid hne
            unfold matrix_booking_count
            rw [h.2.2]

theorem c1_witness :
    (get_option_booking_count (respond_poll dbSelf pollSelf formYes40 0).2 40 : Int)
      ≤ 1 := by
  have h := c1_capacity_per_cell_preserved dbSelf pollSelf formYes40 0
    ⟨by decide, by decide⟩ (respond_poll dbSelf pollSelf formYes40 0).2 rfl
  exact h.1 optSelf (by decide) rfl 1 rfl (by decide) (by decide)

lemma stdOptionCheck_not_yes {db : DB} {p : Poll} {name : String} {E : Bool}
    {f : SubmitForm} {o : PollOption}
    (h : (requestedType f o.id == "yes") = false) :
    stdOptionCheck db p name E f o = true := by
  unfold stdOptionCheck
  rw [h]
  simp

lemma stdOptionCheck_of_lt {db : DB} {p : Poll} {name : String} {E : Bool}
    {f : SubmitForm} {o : PollOption}
    (h : ∀ C : Int, get_option_max_participants o p = some C → C ≠ 0 →
      (get_option_booking_count db o.id : Int) - stdSelfSub db p.id o.id name E < C) :
    stdOptionCheck db p name E f o = true := by
  unfold stdOptionCheck
  cases hyes : (requestedType f o.id == "yes") with
  | false => simp
  | true =>
    simp only [if_true]
    cases hcap : get_option_max_participants o p with
    | none => rfl
    | some C =>
      dsimp only
      by_cases hC0 : C = 0
      · rw [show (C != 0) = false by simp [hC0]]
        rfl
      · rw [show (C != 0) = true by simp [hC0]]
        simp only [if_true, decide_eq_true_eq]
        exact h C hcap hC0

lemma respondStandard_idem (db : DB) (p : Poll) (name : String) (f : SubmitForm)
    (hwf : dbWF db) (hac : p.allow_changes = true) (db1 : DB)
    (h1 : respondStandard db p name f = (none, db1)) :
    respondStandard db1 p name f = (none, db1) := by
  unfold respondStandard at h1
  dsimp only at h1
  split at h1
  · exact absurd (congrArg Prod.fst h1) (by simp)
  · split at h1
    · exact absurd (congrArg Prod.fst h1) (by simp)
    · rename_i hg1 hg2
      have hdb1 := congrArg Prod.snd h1
      dsimp only at hdb1
      have hall0 : (pollOptionsOf db p.id).all
          (fun o => stdOptionCheck db p name (stdHasExisting db p.id name) f o) = true := by
        cases hq : (pollOptionsOf db p.id).all
            (fun o => stdOptionCheck db p name (stdHasExisting db p.id name) f o) with
        | true => rfl
        | false => exact absurd (by rw [hq]; rfl) hg2
      -- The base row set left after the optional delete of run 1.
      have hresp1 : db1.responses
          = (if (stdHasExisting db p.id name && p.allow_changes) = true
              then deleteStdRows db p.id name else db).responses
            ++ stdInsertRows p.id name f (pollOptionsOf db p.id) := by
        rw [← hdb1]
      have hpo1 : db1.poll_options = db.poll_options := by
        rw [← hdb1]
        by_cases hc : (stdHasExisting db p.id name && p.allow_changes) = true <;>
          simp [hc, deleteStdRows]
      have hopts : pollOptionsOf db1 p.id = pollOptionsOf db p.id := by
        unfold pollOptionsOf
        rw [hpo1]
      have hnoPN : ∀ r ∈ (if (stdHasExisting db p.id name && p.allow_changes) = true
          then deleteStdRows db p.id name else db).responses,
          isPN p.id name r = false := by
        by_cases hc : (stdHasExisting db p.id name && p.allow_changes) = true
        · rw [if_pos hc]
          intro r hr
          have := (List.mem_filter.mp hr).2
          simpa using this
        · rw [if_neg hc]
          intro r hr
          have hE : stdHasExisting db p.id name = false := by
            cases hEq : stdHasExisting db p.id name with
            | false => rfl
            | true => exact absurd (by rw [hEq, hac]; rfl) hc
          cases hq : isPN p.id name r with
          | false => rfl
          | true =>
            have : stdHasExisting db p.id name = true := by
              unfold stdHasExisting
              rw [List.any_eq_true]
              exact ⟨r, hr, hq⟩
            rw [this] at hE
            cases hE
      have hnd : ((pollOptionsOf db p.id).map (fun o => o.id)).Nodup :=
        hwf.1.sublist ((List.filter_sublist _).map _)
      have hinsPN : ∀ r ∈ stdInsertRows p.id name f (pollOptionsOf db p.id),
          isPN p.id name r = true := by
        intro r hr
        obtain ⟨hp, hn, -⟩ := mem_stdInsertRows hr
        simp [isPN, hp, hn]
      have hfindbase : ∀ oid,
          (if (stdHasExisting db p.id name && p.allow_changes) = true
            then deleteStdRows db p.id name else db).responses.find?
            (fun r => r.poll_id == p.id && r.option_id == oid
              && r.participant_name == name) = none := by
        intro oid
        rw [List.find?_eq_none]
        intro r hr
        have hpn := hnoPN r hr
        intro hcon
        simp only [Bool.and_eq_true, beq_iff_eq] at hcon
        have hpn2 : isPN p.id name r = true := by
          simp [isPN, hcon.1.1, hcon.2]
        rw [hpn2] at hpn
        cases hpn
      have hG1 : ∀ oid,
          countYesL (if (stdHasExisting db p.id name && p.allow_changes) = true
              then deleteStdRows db p.id name else db).responses oid
            + ownYesL db.responses p.id name oid = countYesL db.responses oid := by
        intro oid
        by_cases hc : (stdHasExisting db p.id name && p.allow_changes) = true
        · rw [if_pos hc]
          exact countYesL_filter_not_add db.responses p.id name oid
        · rw [if_neg hc]
          have hE : stdHasExisting db p.id name = false := by
            cases hEq : stdHasExisting db p.id name with
            | false => rfl
            | true => exact absurd (by rw [hEq, hac]; rfl) hc
          rw [ownYesL_eq_zero_of_not_existing hE]
          omega
      -- Run 2 capacity checks all pass.
      have hall1 : (pollOptionsOf db p.id).all
          (fun o => stdOptionCheck db1 p name (stdHasExisting db1 p.id name) f o)
          = true := by
        rw [List.all_eq_true]
        intro o ho
        cases hyes : (requestedType f o.id == "yes") with
        | false => exact stdOptionCheck_not_yes hyes
        | true =>
          have hyesEq : requestedType f o.id = "yes" := by simpa using hyes
          have hfindins := find?_stdInsertRows p.id name f hnd ho hyesEq
          have hrowmem : ResponseRow.mk p.id o.id name "yes"
              ∈ stdInsertRows p.id name f (pollOptionsOf db p.id) :=
            List.mem_of_find?_eq_some hfindins
          have hrowdb1 : ResponseRow.mk p.id o.id name "yes" ∈ db1.responses := by
            rw [hresp1]
            exact List.mem_append_right _ hrowmem
          have hE1 : stdHasExisting db1 p.id name = true := by
            unfold stdHasExisting
            rw [List.any_eq_true]
            exact ⟨ResponseRow.mk p.id o.id name "yes", hrowdb1, by simp [isPN]⟩
          have hfind1 : stdOldResponse db1 p.id o.id name
              = some (ResponseRow.mk p.id o.id name "yes") := by
            unfold stdOldResponse
            rw [hresp1, List.find?_append, hfindbase o.id]
            simpa using hfindins
          have hsub1 : stdSelfSub db1 p.id o.id name (stdHasExisting db1 p.id name)
              = 1 := by
            unfold stdSelfSub
            rw [hE1, hfind1]
            simp
          have hcnt1 : get_option_booking_count db1 o.id
              = countYesL (if (stdHasExisting db p.id name && p.allow_changes) = true
                  then deleteStdRows db p.id name else db).responses o.id + 1 := by
            unfold get_option_booking_count
            rw [hresp1, countYesL_append,
              countYesL_stdInsertRows_mem p.id name f hnd ho, hyes]
            rfl
          refine stdOptionCheck_of_lt ?_
          intro C hcap hC0
          have hchk0 := List.all_eq_true.mp hall0 o ho
          have hlt0 := stdOptionCheck_yes_lt hyes hcap hC0 hchk0
          have hG := hG1 o.id
          have hgb : get_option_booking_count db o.id = countYesL db.responses o.id := rfl
          rcases stdSelfSub_bounds db p.id o.id name (stdHasExisting db p.id name)
            with hs | hs
          · rw [hs] at hlt0
            rw [hsub1, hcnt1]
            omega
          · rw [hs.1] at hlt0
            have hown := hs.2
            rw [hsub1, hcnt1]
            omega
      -- Run 2 write phase restores exactly db1.
      unfold respondStandard
      dsimp only
      rw [show (stdHasExisting db1 p.id name && !p.allow_changes) = false by
        rw [hac]; simp]
      simp only [Bool.false_eq_true, if_false]
      rw [hopts, hall1]
      simp only [Bool.not_true, Bool.false_eq_true, if_false]
      refine congrArg (Prod.mk none) ?_
      cases hE1c : stdHasExisting db1 p.id name with
      | true =>
        rw [hac]
        simp only [Bool.and_self, eq_self_iff_true, if_true]
        have hfilter : db1.responses.filter (fun r => !(isPN p.id name r))
            = (if (stdHasExisting db p.id name && p.allow_changes) = true
                then deleteStdRows db p.id name else db).responses := by
          rw [hresp1, List.filter_append]
          rw [List.filter_eq_self.mpr (fun r hr => by rw [hnoPN r hr]; rfl),
            List.filter_eq_nil_iff.mpr (fun r hr => by rw [hinsPN r hr]; simp),
            List.append_nil]
        show DB.mk db1.poll_options db1.poll_resources
            (db1.responses.filter (fun r => !(isPN p.id name r))
              ++ stdInsertRows p.id name f (pollOptionsOf db p.id))
            db1.matrix_responses = db1
        rw [hfilter, ← hresp1]
      | false =>
        simp only [Bool.false_and, Bool.false_eq_true, if_false]
        have hins_nil : stdInsertRows p.id name f (pollOptionsOf db p.id) = [] := by
          cases hq : stdInsertRows p.id name f (pollOptionsOf db p.id) with
          | nil => rfl
          | cons r t =>
            have hrmem : r ∈ stdInsertRows p.id name f (pollOptionsOf db p.id) := by
              rw [hq]
              exact List.mem_cons_self r t
            have hrdb1 : r ∈ db1.responses := by
              rw [hresp1]
              exact List.mem_append_right _ hrmem
            have : stdHasExisting db1 p.id name = true := by
              unfold stdHasExisting
              rw [List.any_eq_true]
              exact ⟨r, hrdb1, hinsPN r hrmem⟩
            rw [this] at hE1c
            cases hE1c
        rw [hins_nil, List.append_nil]

lemma sel_countP_one {sel : List (Nat × Nat)} (hdup : matrixDupFail sel = false)
    {r2 o2 : Nat} (hmem : ((r2, o2) : Nat × Nat) ∈ sel) :
    sel.countP (fun q => q.1 == r2 && q.2 == o2) = 1 := by
  have hlow : 1 ≤ sel.countP (fun q => q.1 == r2 && q.2 == o2) :=
    List.one_le_countP_iff.mpr ⟨(r2, o2), hmem, by simp⟩
  have hup : sel.countP (fun q => q.1 == r2 && q.2 == o2)
      ≤ sel.countP (fun q => q.2 == o2) := by
    refine List.countP_mono_left ?_
    intro q hq hpq
    simp only [Bool.and_eq_true, beq_iff_eq] at hpq
    simp [hpq.2]
  have hnotdup : ¬(1 < sel.countP (fun q => q.2 == o2)) := by
    unfold matrixDupFail at hdup
    have := List.any_eq_false.mp hdup (r2, o2) hmem
    simpa using this
  omega

lemma matrixPairCheck_of_lt {db : DB} {p : Poll} {opts : List PollOption}
    {existingRows : List MatrixRow} {pr : Nat × Nat}
    (h : ∀ (o : PollOption) (C : Int), opts.find? (fun o2 => o2.id == pr.2) = some o →
      get_option_max_participants o p = some C → C ≠ 0 →
      (matrix_booking_count db p.id pr.1 pr.2 : Int)
        - (if pairInExisting existingRows pr.1 pr.2 then 1 else 0) < C) :
    matrixPairCheck db p opts existingRows pr = true := by
  unfold matrixPairCheck
  cases hfind : opts.find? (fun o2 => o2.id == pr.2) with
  | none => rfl
  | some o =>
    dsimp only
    cases hcap : get_option_max_participants o p with
    | none => rfl
    | some C =>
      dsimp only
      by_cases hC0 : C = 0
      · rw [show (C != 0) = false by simp [hC0]]
        rfl
      · rw [show (C != 0) = true by simp [hC0]]
        simp only [if_true, decide_eq_true_eq]
        exact h o C hfind hcap hC0

lemma matrixPairCheck_lt2 {db : DB} {p : Poll} {opts : List PollOption}
    {existingRows : List MatrixRow} {pr : Nat × Nat} {o : PollOption} {C : Int}
    (hfind : opts.find? (fun o2 => o2.id == pr.2) = some o)
    (hcap : get_option_max_participants o p = some C) (hC0 : C ≠ 0)
    (hchk : matrixPairCheck db p opts existingRows pr = true) :
    (matrix_booking_count db p.id pr.1 pr.2 : Int)
      - (if pairInExisting existingRows pr.1 pr.2 then 1 else 0) < C := by
  unfold matrixPairCheck at hchk
  rw [hfind] at hchk
  dsimp only at hchk
  rw [hcap] at hchk
  dsimp only at hchk
  have hcz : (C != 0) = true := by simp [hC0]
  rw [hcz] at hchk
  simp only [if_true, decide_eq_true_eq] at hchk
  exact hchk

lemma respondMatrix_idem (db : DB) (p : Poll) (name : String) (f : SubmitForm)
    (hac : p.allow_changes = true) (db1 : DB)
    (h1 : respondMatrix db p name f = (none, db1)) :
    respondMatrix db1 p name f = (none, db1) := by
  unfold respondMatrix at h1
  dsimp only at h1
  split at h1
  · exact absurd (congrArg Prod.fst h1) (by simp)
  · split at h1
    · exact absurd (congrArg Prod.fst h1) (by simp)
    · split at h1
      · exact absurd (congrArg Prod.fst h1) (by simp)
      · rename_i hg1 hg2 hg3
        have hdb1 := congrArg Prod.snd h1
        dsimp only at hdb1
        have hdup : matrixDupFail (matrixSelections f (resourcesOf db p.id)
            (pollOptionsOf db p.id) p.allow_multi_bookings) = false := by
          cases hq : matrixDupFail (matrixSelections f (resourcesOf db p.id)
              (pollOptionsOf db p.id) p.allow_multi_bookings) with
          | false => rfl
          | true => exact absurd hq hg2
        have hall0 : (matrixSelections f (resourcesOf db p.id) (pollOptionsOf db p.id)
            p.allow_multi_bookings).all
            (fun pr => matrixPairCheck db p (pollOptionsOf db p.id)
              (matExistingRows db p.id name) pr) = true := by
          cases hq : (matrixSelections f (resourcesOf db p.id) (pollOptionsOf db p.id)
              p.allow_multi_bookings).all
              (fun pr => matrixPairCheck db p (pollOptionsOf db p.id)
                (matExistingRows db p.id name) pr) with
          | true => rfl
          | false => exact absurd (by rw [hq]; rfl) hg3
        have hmat1 : db1.matrix_responses
            = (if (!(matExistingRows db p.id name).isEmpty && p.allow_changes) = true
                then deleteMatRows db p.id name else db).matrix_responses
              ++ matrixInsertRows p.id name (matrixSelections f (resourcesOf db p.id)
                  (pollOptionsOf db p.id) p.allow_multi_bookings) := by
          rw [← hdb1]
        have hpo1 : db1.poll_options = db.poll_options := by
          rw [← hdb1]
          by_cases hc : (!(matExistingRows db p.id name).isEmpty
              && p.allow_changes) = true <;>
            simp [hc, deleteMatRows]
        have hpr1 : db1.poll_resources = db.poll_resources := by
          rw [← hdb1]
          by_cases hc : (!(matExistingRows db p.id name).isEmpty
              && p.allow_changes) = true <;>
            simp [hc, deleteMatRows]
        have hopts : pollOptionsOf db1 p.id = pollOptionsOf db p.id := by
          unfold pollOptionsOf
          rw [hpo1]
        have hress : resourcesOf db1 p.id = resourcesOf db p.id := by
          unfold resourcesOf
          rw [hpr1]
        have hnoPNM : ∀ r ∈ (if (!(matExistingRows db p.id name).isEmpty
            && p.allow_changes) = true
            then deleteMatRows db p.id name else db).matrix_responses,
            isPNM p.id name r = false := by
          by_cases hc : (!(matExistingRows db p.id name).isEmpty
              && p.allow_changes) = true
          · rw [if_pos hc]
            intro r hr
            have := (List.mem_filter.mp hr).2
            simpa using this
          · rw [if_neg hc]
            intro r hr
            have hE : (matExistingRows db p.id name).isEmpty = true := by
              cases hEq : (matExistingRows db p.id name).isEmpty with
              | true => rfl
              | false => exact absurd (by rw [hEq, hac]; rfl) hc
            cases hq : isPNM p.id name r with
            | false => rfl
            | true =>
              have hmem : r ∈ matExistingRows db p.id name := by
                unfold matExistingRows
                exact List.mem_filter.mpr ⟨hr, hq⟩
              rw [List.isEmpty_eq_true] at hE
              rw [hE] at hmem
              cases hmem
        have hinsPNM : ∀ r ∈ matrixInsertRows p.id name (matrixSelections f
            (resourcesOf db p.id) (pollOptionsOf db p.id) p.allow_multi_bookings),
            isPNM p.id name r = true := by
          intro r hr
          obtain ⟨hp, hn, -⟩ := mem_matrixInsertRows hr
          simp [isPNM, hp, hn]
        have hexrows1 : matExistingRows db1 p.id name
            = matrixInsertRows p.id name (matrixSelections f (resourcesOf db p.id)
                (pollOptionsOf db p.id) p.allow_multi_bookings) := by
          unfold matExistingRows
          rw [hmat1, List.filter_append]
          rw [List.filter_eq_nil_iff.mpr (fun r hr => by rw [hnoPNM r hr]; simp),
            List.filter_eq_self.mpr (fun r hr => hinsPNM r hr), List.nil_append]
        have hG1 : ∀ rid oid,
            matCountL (if (!(matExistingRows db p.id name).isEmpty
                && p.allow_changes) = true
                then deleteMatRows db p.id name else db).matrix_responses p.id rid oid
              + ownPairL db.matrix_responses p.id name rid oid
              = matCountL db.matrix_responses p.id rid oid := by
          intro rid oid
          by_cases hc : (!(matExistingRows db p.id name).isEmpty
              && p.allow_changes) = true
          · rw [if_pos hc]
            exact matCountL_filter_not_add db.matrix_responses p.id name rid oid
          · rw [if_neg hc]
            have hE : (matExistingRows db p.id name).isEmpty = true := by
              cases hEq : (matExistingRows db p.id name).isEmpty with
              | true => rfl
              | false => exact absurd (by rw [hEq, hac]; rfl) hc
            rw [ownPairL_eq_zero_of_not_existing hE]
            omega
        -- Run 2 capacity checks all pass.
        have hall1 : (matrixSelections f (resourcesOf db p.id) (pollOptionsOf db p.id)
            p.allow_multi_bookings).all
            (fun pr => matrixPairCheck db1 p (pollOptionsOf db p.id)
              (matExistingRows db1 p.id name) pr) = true := by
          rw [List.all_eq_true]
          intro pr hpr
          refine matrixPairCheck_of_lt ?_
          intro o C hfind hcap hC0
          have hchk0 := List.all_eq_true.mp hall0 pr hpr
          have hlt0 := matrixPairCheck_lt2 hfind hcap hC0 hchk0
          have hpe1 : pairInExisting (matExistingRows db1 p.id name) pr.1 pr.2
              = true := by
            rw [hexrows1]
            exact pairInExisting_matrixInsertRows (by simpa using hpr)
          rw [hpe1]
          simp only [if_true]
          have hcnt1 : matrix_booking_count db1 p.id pr.1 pr.2
              = matCountL (if (!(matExistingRows db p.id name).isEmpty
                  && p.allow_changes) = true
                  then deleteMatRows db p.id name else db).matrix_responses p.id pr.1 pr.2
                + 1 := by
            unfold matrix_booking_count
            rw [hmat1, matCountL_append, matCountL_matrixInsertRows]
            rw [sel_countP_one hdup (by simpa using hpr)]
          have hG := hG1 pr.1 pr.2
          have hgb : matrix_booking_count db p.id pr.1 pr.2
              = matCountL db.matrix_responses p.id pr.1 pr.2 := rfl
          cases hpe0 : pairInExisting (matExistingRows db p.id name) pr.1 pr.2 with
          | true =>
            rw [hpe0] at hlt0
            simp only [if_true] at hlt0
            have hown := pairInExisting_le_ownPair hpe0
            omega
          | false =>
            rw [hpe0] at hlt0
            simp only [Bool.false_eq_true, if_false] at hlt0
            omega
        -- Run 2 write phase restores exactly db1.
        unfold respondMatrix
        dsimp only
        rw [hress, hopts]
        rw [show (!(matExistingRows db1 p.id name).isEmpty && !p.allow_changes)
            = false by rw [hac]; simp]
        simp only [Bool.false_eq_true, if_false]
        rw [hdup]
        simp only [Bool.false_eq_true, if_false]
        rw [hall1]
        simp only [Bool.not_true, Bool.false_eq_true, if_false]
        refine congrArg (Prod.mk none) ?_
        cases hE1c : (matExistingRows db1 p.id name).isEmpty with
        | false =>
          rw [hac]
          simp only [Bool.not_false, Bool.and_self, eq_self_iff_true, if_true]
          have hfilter : db1.matrix_responses.filter (fun r => !(isPNM p.id name r))
              = (if (!(matExistingRows db p.id name).isEmpty && p.allow_changes) = true
                  then deleteMatRows db p.id name else db).matrix_responses := by
            rw [hmat1, List.filter_append]
            rw [List.filter_eq_self.mpr (fun r hr => by rw [hnoPNM r hr]; rfl),
              List.filter_eq_nil_iff.mpr (fun r hr => by rw [hinsPNM r hr]; simp),
              List.append_nil]
          show DB.mk db1.poll_options db1.poll_resources db1.responses
              (db1.matrix_responses.filter (fun r => !(isPNM p.id name r))
                ++ matrixInsertRows p.id name (matrixSelections f (resourcesOf db p.id)
                    (pollOptionsOf db p.id) p.allow_multi_bookings)) = db1
          rw [hfilter, ← hmat1]
        | true =>
          simp only [Bool.not_true, Bool.false_and, Bool.false_eq_true, if_false]
          have hins_nil : matrixInsertRows p.id name (matrixSelections f
              (resourcesOf db p.id) (pollOptionsOf db p.id) p.allow_multi_bookings)
              = [] := by
            cases hq : matrixInsertRows p.id name (matrixSelections f
                (resourcesOf db p.id) (pollOptionsOf db p.id)
                p.allow_multi_bookings) with
            | nil => rfl
            | cons r t =>
              have hrmem : r ∈ matrixInsertRows p.id name (matrixSelections f
                  (resourcesOf db p.id) (pollOptionsOf db p.id)
                  p.allow_multi_bookings) := by
                rw [hq]
                exact List.mem_cons_self r t
              have hrdb1 : r ∈ matExistingRows db1 p.id name := by
                rw [hexrows1]
                exact hrmem
              rw [List.isEmpty_eq_true] at hE1c
              rw [hE1c] at hrdb1
              cases hrdb1
          rw [hins_nil, List.append_nil]

/-- C8: idempotence under `allowChanges` — if a submission succeeds,
immediately resubmitting the exact same form input (with no interleaving
writes) succeeds again and leaves the database byte-for-byte identical
to the state after the first submission: the same rows, hence the same
per-option and per-cell counts, with no duplicates.  Holds for both
standard and matrix polls. -/
theorem c8_idempotent_resubmission (db : DB) (p : Poll) (f : SubmitForm) (now : Nat)
    (hwf : dbWF db) (hac : p.allow_changes = true) (db1 : DB)
    (h1 : respond_poll db p f now = (none, db1)) :
    respond_poll db1 p f now = (none, db1) := by
  unfold respond_poll at h1 ⊢
  dsimp only at h1 ⊢
  split at h1
  · exact absurd (congrArg Prod.fst h1) (by simp)
  · rename_i hg1
    rw [if_neg hg1]
    split at h1
    · exact absurd (congrArg Prod.fst h1) (by simp)
    · rename_i hg2
      rw [if_neg hg2]
      split at h1
      · exact absurd (congrArg Prod.fst h1) (by simp)
      · rename_i hg3
        rw [if_neg hg3]
        split at h1
        · rename_i hg4
          rw [if_pos hg4]
          exact respondMatrix_idem db p (pyStrip f.participant_name) f hac db1 h1
        · rename_i hg4
          rw [if_neg hg4]
          exact respondStandard_idem db p (pyStrip f.participant_name) f hwf hac db1 h1

theorem c8_witness :
    respond_poll (respond_poll dbSelf pollSelf formYes40 0).2 pollSelf formYes40 0
      = (none, (respond_poll dbSelf pollSelf formYes40 0).2) :=
  c8_idempotent_resubmission dbSelf pollSelf formYes40 0 ⟨by decide, by decide⟩ rfl
    (respond_poll dbSelf pollSelf formYes40 0).2 rfl
